import Mathlib

/-!
Shallow embedding of the PowerSync core sync engine
(crates/core/src/operations.rs and crates/core/src/sync_local.rs).

Database tables are modelled as Lean lists of rows; each Rust function
that mutates the database becomes a Lean function from `DbState` to
`DbState`.  SQL `UPDATE ... WHERE` becomes `List.map` with a conditional
rewrite, `DELETE ... WHERE` becomes `List.filter` with the negated
condition, and `INSERT` appends to the list.  SQLite `NULL` becomes
`Option.none`; SQL equality on a `NULL` operand is false, which the
embedding reflects by comparing `Option` values against `some _`.
Integers (`op_id`, checksums, hashes) are modelled as `Int`, matching
SQLite's 64-bit integer arithmetic used by the statements in the source.
-/

namespace PowerSync

/-- Row of the `ps_buckets` table. `pending_delete` is stored as 0/1 in
SQLite and modelled as `Bool`. -/
structure Bucket where
  name : String
  last_op : Int
  last_applied_op : Int
  target_op : Int
  add_checksum : Int
  pending_delete : Bool
deriving DecidableEq, Repr

/-- Row of the `ps_oplog` table. `op` holds the kind code persisted by the
code: 2 = MOVE, 3 = PUT, 4 = REMOVE. `superseded` is stored as 0/1 and
modelled as `Bool` (1 ↔ `true`). -/
structure OplogEntry where
  bucket : String
  op_id : Int
  op : Int
  key : Option String
  row_type : Option String
  row_id : Option String
  data : Option String
  hash : Int
  superseded : Bool
deriving DecidableEq, Repr

/-- One decoded operation object of a batch, as read by the
`iterate_statement` of `insert_bucket_operations`: fields `op_id`, `op`,
`object_type`, `object_id`, `checksum`, `data`, `subkey`.  A column that is
JSON-absent or null reads as `none` (the Rust `column_text` call returns
`Err` there). -/
structure SyncOp where
  op_id : Int
  op : String
  object_type : Option String
  object_id : Option String
  checksum : Int
  data : Option String
  subkey : Option String
deriving DecidableEq, Repr

/-- The database state: the internal tables touched by the core.
`ps_data` maps each existing `ps_data_*` table name to its rows
(`id`, `data`); `ps_crud` rows are opaque; `ps_kv` rows are
(`key`, `value`); `ps_untyped` rows are (`type`, `id`, `data`). -/
structure DbState where
  ps_buckets : List Bucket
  ps_oplog : List OplogEntry
  ps_crud : List String
  ps_kv : List (String × String)
  ps_untyped : List (String × String × String)
  ps_data : List (String × List (String × String))
deriving DecidableEq, Repr

/-- Key composition of `insert_bucket_operations`:
`format!("{}/{}/{}", object_type, object_id, subkey)` with the absent
subkey read as the literal string "null" (`unwrap_or("null")`). -/
def computeKey (t i : String) (sk : Option String) : String :=
  t ++ "/" ++ i ++ "/" ++ sk.getD "null"

/-- The `supersede_statement` of `insert_bucket_operations`:
`UPDATE ps_oplog SET superseded = 1, op = 2, data = NULL
 WHERE superseded = 0 AND bucket = ?1 AND key = ?2`, applied to one row. -/
def supersedeEntry (bucket key : String) (e : OplogEntry) : OplogEntry :=
  if e.superseded = false ∧ e.bucket = bucket ∧ e.key = some key then
    { e with superseded := true, op := 2, data := none }
  else e

/-- The row built by the `insert_statement` of `insert_bucket_operations`
for a PUT / REMOVE / MOVE operation.  `key`, `row_type`, `row_id` are NULL
exactly when `object_type` or `object_id` is absent; `data` is bound from
the operation's `data` field whenever present, `hash` from `checksum`;
`superseded` is 1 iff the op is MOVE, and the kind code is 2 for MOVE,
3 for PUT, 4 otherwise. -/
def newOplogEntry (bucket : String) (o : SyncOp) : OplogEntry :=
  { bucket := bucket
    op_id := o.op_id
    op := if o.op = "MOVE" then 2 else if o.op = "PUT" then 3 else 4
    key := match o.object_type, o.object_id with
      | some t, some i => some (computeKey t i o.subkey)
      | _, _ => none
    row_type := match o.object_type, o.object_id with
      | some t, some _ => some t
      | _, _ => none
    row_id := match o.object_type, o.object_id with
      | some _, some i => some i
      | _, _ => none
    data := o.data
    hash := o.checksum
    superseded := o.op = "MOVE" }

/-- The `bucket_target_statement`:
`UPDATE ps_buckets SET target_op = MAX(ifnull(cast(json_extract(?, '$.target') as integer), 0), target_op) WHERE name = ?`.
The JSON extraction `ifnull(cast(json_extract(d, '$.target') as integer), 0)`
is performed by SQLite's JSON library, outside this repository; it is passed
in as the function `extractTarget`. -/
def bumpTarget (extractTarget : String → Int) (bucket : String) (d : String)
    (s : DbState) : DbState :=
  { s with ps_buckets := s.ps_buckets.map fun bk =>
      if bk.name = bucket then
        { bk with target_op := max (extractTarget d) bk.target_op }
      else bk }

/-- The `clear_statement` of the CLEAR branch, applied to one row:
`UPDATE ps_oplog SET op=4, data=NULL, hash=0 WHERE (op=3 OR op=4) AND bucket=?1`. -/
def clearEntry (bucket : String) (e : OplogEntry) : OplogEntry :=
  if (e.op = 3 ∨ e.op = 4) ∧ e.bucket = bucket then
    { e with op := 4, data := none, hash := 0 }
  else e

/-- The `clear_statement2` of the CLEAR branch, applied to one row:
`UPDATE ps_buckets SET last_applied_op = 0, add_checksum = ?1 WHERE name = ?2`. -/
def clearBucketRow (bucket : String) (checksum : Int) (bk : Bucket) : Bucket :=
  if bk.name = bucket then
    { bk with last_applied_op := 0, add_checksum := checksum }
  else bk

/-- The `bucket_statement` preamble:
`INSERT OR IGNORE INTO ps_buckets(name) VALUES(?)`.  The inserted row
carries the schema defaults for the remaining columns.
The schema module is not part of the two source files; the defaults
(all counters 0, not pending delete) are modelled from the spec's data
model, which has a fresh bucket created on first reference with no
progress recorded. -/
def ensureBucket (bucket : String) (s : DbState) : DbState :=
  if s.ps_buckets.any fun bk => bk.name = bucket then s
  else
    { s with ps_buckets := s.ps_buckets ++
        [{ name := bucket, last_op := 0, last_applied_op := 0, target_op := 0,
           add_checksum := 0, pending_delete := false }] }

/-- The `supersede_statement` execution: it runs exactly when the key was
computed, i.e. when both `object_type` and `object_id` are present (the
Rust `if let (Ok, Ok)` around `supersede_statement.exec()`), and marks
every live row of the bucket with that key. -/
def supersedeForKey (bucket : String) (o : SyncOp) (s : DbState) : DbState :=
  match o.object_type, o.object_id with
  | some t, some i =>
    { s with ps_oplog := s.ps_oplog.map (supersedeEntry bucket (computeKey t i o.subkey)) }
  | _, _ => s

/-- The `insert_statement` execution: append the new oplog row. -/
def insertNewEntry (bucket : String) (o : SyncOp) (s : DbState) : DbState :=
  { s with ps_oplog := s.ps_oplog ++ [newOplogEntry bucket o] }

/-- The conditional `bucket_target_statement` execution: only a MOVE whose
`data` field is present bumps `target_op`. -/
def moveTargetStep (extractTarget : String → Int) (bucket : String) (o : SyncOp)
    (s : DbState) : DbState :=
  if o.op = "MOVE" then
    match o.data with
    | some d => bumpTarget extractTarget bucket d s
    | none => s
  else s

/-- The CLEAR branch of the loop (operations.rs lines 145-159): rewrite the
bucket's PUT/REMOVE rows and reset the bucket record. -/
def clearStep (bucket : String) (checksum : Int) (s : DbState) : DbState :=
  { s with
    ps_oplog := s.ps_oplog.map (clearEntry bucket),
    ps_buckets := s.ps_buckets.map (clearBucketRow bucket checksum) }

/-- One iteration of the main loop of `insert_bucket_operations`
(operations.rs lines 88-160), for a single decoded operation:
PUT / REMOVE / MOVE supersede the prior live row of the computed key
(when `object_type` and `object_id` are both present) and append the new
row; MOVE additionally bumps `target_op` from its `data` payload; CLEAR
rewrites the bucket's PUT/REMOVE rows and resets the bucket record; any
other kind does nothing. -/
def applyOp (extractTarget : String → Int) (bucket : String)
    (s : DbState) (o : SyncOp) : DbState :=
  if o.op = "PUT" ∨ o.op = "REMOVE" ∨ o.op = "MOVE" then
    moveTargetStep extractTarget bucket o (insertNewEntry bucket o (supersedeForKey bucket o s))
  else if o.op = "CLEAR" then
    clearStep bucket o.checksum s
  else s

/-- The postamble statement `UPDATE ps_buckets SET last_op = ?1 WHERE name = ?2`. -/
def setLastOp (bucket : String) (lastOp : Int) (s : DbState) : DbState :=
  { s with ps_buckets := s.ps_buckets.map fun bk =>
      if bk.name = bucket then { bk with last_op := lastOp } else bk }

/-- Condition of the two compaction statements: the row is superseded,
belongs to the bucket, and its `op_id` lies in the batch range. -/
def supersededInRange (bucket : String) (firstOp lastOp : Int)
    (e : OplogEntry) : Prop :=
  e.superseded = true ∧ e.bucket = bucket ∧ firstOp ≤ e.op_id ∧ e.op_id ≤ lastOp

instance (bucket : String) (firstOp lastOp : Int) (e : OplogEntry) :
    Decidable (supersededInRange bucket firstOp lastOp e) := by
  unfold supersededInRange; infer_instance

/-- The per-batch compaction postamble of `insert_bucket_operations`
(operations.rs lines 171-198): add the summed hash of the bucket's
superseded rows with `op_id` in the batch range into the bucket's
`add_checksum`, then delete exactly those rows. -/
def compact (bucket : String) (firstOp lastOp : Int) (s : DbState) : DbState :=
  let smallSum : Int :=
    ((s.ps_oplog.filter fun e =>
      decide (supersededInRange bucket firstOp lastOp e)).map OplogEntry.hash).sum
  { s with
    ps_buckets := s.ps_buckets.map fun bk =>
      if bk.name = bucket then { bk with add_checksum := bk.add_checksum + smallSum }
      else bk,
    ps_oplog := s.ps_oplog.filter fun e =>
      ! decide (supersededInRange bucket firstOp lastOp e) }

/-- Embedding of `insert_bucket_operations` (operations.rs lines 43-201):
ensure the bucket row exists, fold the decoded operation list in order,
then — when the batch was non-empty — set `last_op` to the batch's last
`op_id` and run the compaction postamble over the range from the first to
the last `op_id` of the batch. -/
def insert_bucket_operations (extractTarget : String → Int) (bucket : String)
    (ops : List SyncOp) (s : DbState) : DbState :=
  match ops.head?, ops.getLast? with
  | some f, some l =>
    compact bucket f.op_id l.op_id
      (setLastOp bucket l.op_id (ops.foldl (applyOp extractTarget bucket) (ensureBucket bucket s)))
  | _, _ => ops.foldl (applyOp extractTarget bucket) (ensureBucket bucket s)

/-- Condition of `delete_pending_buckets`:
`pending_delete = 1 AND last_applied_op = last_op AND last_op >= target_op`. -/
def reapCond (bk : Bucket) : Prop :=
  bk.pending_delete = true ∧ bk.last_applied_op = bk.last_op ∧
    bk.target_op ≤ bk.last_op

instance (bk : Bucket) : Decidable (reapCond bk) := by
  unfold reapCond; infer_instance

/-- Embedding of `delete_pending_buckets` (operations.rs lines 247-260):
delete the oplog rows of every bucket satisfying `reapCond`, then delete
those `ps_buckets` rows. -/
def delete_pending_buckets (s : DbState) : DbState :=
  { s with
    ps_oplog := s.ps_oplog.filter fun e =>
      ! ((s.ps_buckets.filter fun bk => decide (reapCond bk)).map Bucket.name).contains e.bucket,
    ps_buckets := s.ps_buckets.filter fun bk => ! decide (reapCond bk) }

/-- Embedding of `can_update_local` (sync_local.rs lines 12-38): false iff
some bucket has `target_op > last_op` and is either the `$local` bucket or
not pending delete (the `group_concat` query returns a non-NULL text iff
such a bucket exists), or `ps_crud` has a row. -/
def can_update_local (s : DbState) : Bool :=
  !(s.ps_buckets.any fun bk =>
      decide (bk.last_op < bk.target_op ∧ (bk.name = "$local" ∨ bk.pending_delete = false)))
  && s.ps_crud.isEmpty

/-- Modelled from the spec: `internal_table_name` lives in the `util`
module, which is not among the source files; the spec gives the user table
name for row type `t` as `ps_data__<t>`. -/
def internal_table_name (t : String) : String := "ps_data__" ++ t

/-- SQL equality between two nullable columns: false whenever either side
is NULL, the usual three-valued comparison collapsed to a filter. -/
def sqlEqOpt (a b : Option String) : Prop :=
  match a, b with
  | some x, some y => x = y
  | _, _ => False

instance (a b : Option String) : Decidable (sqlEqOpt a b) := by
  unfold sqlEqOpt; cases a <;> cases b <;> infer_instance

/-- Join of the unified row query of `sync_local` (sync_local.rs lines
64-87): for every bucket row, every non-superseded oplog entry `b` of that
bucket with `op_id > last_applied_op`, joined with every non-superseded
oplog entry `r` whose `row_type` and `row_id` equal `b`'s (SQL equality,
so NULL fields never join).  The list keeps the `r` rows with join
multiplicity, as the SQL join does. -/
def syncJoinRows (s : DbState) : List OplogEntry :=
  s.ps_buckets.flatMap fun bk =>
    (s.ps_oplog.filter fun b =>
        decide (b.bucket = bk.name ∧ bk.last_applied_op < b.op_id ∧ b.superseded = false)).flatMap
      fun b =>
        s.ps_oplog.filter fun r =>
          decide (sqlEqOpt r.row_type b.row_type ∧ sqlEqOpt r.row_id b.row_id ∧
            r.superseded = false)

/-- Group keys of the unified row query: the distinct `(row_type, row_id)`
pairs of the joined rows.  The GROUP BY emits each pair once; since every
pair addresses a distinct user row, the order groups are processed in does
not affect the final state, and the embedding uses first-occurrence
order. -/
def syncGroupKeys (s : DbState) : List (String × String) :=
  ((syncJoinRows s).filterMap fun r =>
    match r.row_type, r.row_id with
    | some t, some i => some (t, i)
    | _, _ => none).eraseDups

/-- One output row of the unified row query, as read by the apply loop of
`sync_local`: `type`, `id`, the selected `data`, and the bucket names of
the contributing PUT rows (the `json_group_array FILTER (WHERE r.op=3)`
column; the loop only tests it against the empty array). -/
structure RowGroup where
  row_type : String
  row_id : String
  data : Option String
  buckets : List String
deriving DecidableEq, Repr

/-- SQLite's bare-column selection for `max(r.op_id) FILTER (WHERE r.op=3)`:
`data` is taken from a PUT row achieving the maximal `op_id`. -/
def selectPutData (rows : List OplogEntry) : Option String :=
  match rows.filter fun r => decide (r.op = 3) with
  | [] => none
  | x :: xs => (xs.foldl (fun best r => if best.op_id < r.op_id then r else best) x).data

/-- The output rows of the unified row query of `sync_local`, one per
group key. -/
def syncRowGroups (s : DbState) : List RowGroup :=
  (syncGroupKeys s).map fun p =>
    let rows := (syncJoinRows s).filter fun r =>
      decide (r.row_type = some p.1 ∧ r.row_id = some p.2)
    { row_type := p.1, row_id := p.2,
      data := selectPutData rows,
      buckets := (rows.filter fun r => decide (r.op = 3)).map OplogEntry.bucket }

/-- `REPLACE INTO <tbl>(id, data) VALUES(?, ?)` on the named `ps_data_*`
table: drop any row with the same id, insert the new row. -/
def psDataReplace (tbl id d : String)
    (tables : List (String × List (String × String))) :
    List (String × List (String × String)) :=
  tables.map fun t =>
    if t.1 = tbl then (t.1, (t.2.filter fun r => ! decide (r.1 = id)) ++ [(id, d)])
    else t

/-- `DELETE FROM <tbl> WHERE id = ?` on the named `ps_data_*` table. -/
def psDataDelete (tbl id : String)
    (tables : List (String × List (String × String))) :
    List (String × List (String × String)) :=
  tables.map fun t =>
    if t.1 = tbl then (t.1, t.2.filter fun r => ! decide (r.1 = id)) else t

/-- Body of the apply loop of `sync_local` (sync_local.rs lines 91-140) for
one row group.  When the typed table exists, an empty `buckets` array
deletes the id from it and a non-empty one REPLACEs `(id, data)`;
otherwise the same against `ps_untyped` keyed by `(type, id)`.  Binding a
NULL `data` for a REPLACE fails (`data?` in the source), modelled as
`none`. -/
def applyRowGroup (tables : List String) (s : DbState) (g : RowGroup) :
    Option DbState :=
  let tname := internal_table_name g.row_type
  if tables.contains tname then
    if g.buckets.isEmpty then
      some { s with ps_data := psDataDelete tname g.row_id s.ps_data }
    else
      match g.data with
      | some d => some { s with ps_data := psDataReplace tname g.row_id d s.ps_data }
      | none => none
  else
    let kept := s.ps_untyped.filter fun r => ! decide (r.1 = g.row_type ∧ r.2.1 = g.row_id)
    if g.buckets.isEmpty then
      some { s with ps_untyped := kept }
    else
      match g.data with
      | some d => some { s with ps_untyped := kept ++ [(g.row_type, g.row_id, d)] }
      | none => none

/-- The closing statement
`UPDATE ps_buckets SET last_applied_op = last_op WHERE last_applied_op != last_op`. -/
def setLastAppliedStep (s : DbState) : DbState :=
  { s with ps_buckets := s.ps_buckets.map fun bk =>
      if bk.last_applied_op ≠ bk.last_op then { bk with last_applied_op := bk.last_op }
      else bk }

/-- The closing statement
`insert or replace into ps_kv(key, value) values('last_synced_at', datetime())`;
`now` stands for the `datetime()` result. -/
def recordSyncedAtStep (now : String) (s : DbState) : DbState :=
  { s with ps_kv :=
      (s.ps_kv.filter fun p => ! decide (p.1 = "last_synced_at")) ++
        [("last_synced_at", now)] }

/-- Embedding of `sync_local` (sync_local.rs lines 40-155).  If
`can_update_local` is false the call returns 0 and the state is untouched.
Otherwise it folds the apply loop over the row groups of the unified row
query (failing if a REPLACE reads a NULL `data`), sets
`last_applied_op := last_op` on every bucket where they differ, upserts
`('last_synced_at', now)` into `ps_kv`, and returns 1. -/
def sync_local (now : String) (s : DbState) : Option (DbState × Int) :=
  if ! can_update_local s then some (s, 0)
  else
    match (syncRowGroups s).foldlM (applyRowGroup (s.ps_data.map Prod.fst)) s with
    | none => none
    | some s1 => some (recordSyncedAtStep now (setLastAppliedStep s1), 1)

/-! ## Projection lemmas -/

@[simp]
theorem ensureBucket_oplog (b : String) (s : DbState) :
    (ensureBucket b s).ps_oplog = s.ps_oplog := by
  unfold ensureBucket; split <;> rfl

@[simp]
theorem bumpTarget_oplog (f : String → Int) (b d : String) (s : DbState) :
    (bumpTarget f b d s).ps_oplog = s.ps_oplog := rfl

@[simp]
theorem setLastOp_oplog (b : String) (l : Int) (s : DbState) :
    (setLastOp b l s).ps_oplog = s.ps_oplog := rfl

@[simp]
theorem compact_oplog (b : String) (f l : Int) (s : DbState) :
    (compact b f l s).ps_oplog =
      s.ps_oplog.filter fun e => ! decide (supersededInRange b f l e) := rfl

@[simp]
theorem moveTargetStep_oplog (ext : String → Int) (b : String) (o : SyncOp) (s : DbState) :
    (moveTargetStep ext b o s).ps_oplog = s.ps_oplog := by
  unfold moveTargetStep
  split
  · split <;> rfl
  · rfl

@[simp]
theorem insertNewEntry_oplog (b : String) (o : SyncOp) (s : DbState) :
    (insertNewEntry b o s).ps_oplog = s.ps_oplog ++ [newOplogEntry b o] := rfl

theorem supersedeForKey_eq_self (b : String) (o : SyncOp) (s : DbState)
    (h : o.object_type = none ∨ o.object_id = none) :
    supersedeForKey b o s = s := by
  unfold supersedeForKey
  rcases h with h | h
  · rw [h]
  · rw [h]
    rcases o.object_type with _ | t <;> rfl

theorem supersedeForKey_eq_map (b : String) (o : SyncOp) (s : DbState) (t i : String)
    (ht : o.object_type = some t) (hi : o.object_id = some i) :
    (supersedeForKey b o s).ps_oplog =
      s.ps_oplog.map (supersedeEntry b (computeKey t i o.subkey)) := by
  unfold supersedeForKey
  rw [ht, hi]

theorem newOplogEntry_fields_none (b : String) (o : SyncOp)
    (h : o.object_type = none ∨ o.object_id = none) :
    (newOplogEntry b o).key = none ∧ (newOplogEntry b o).row_type = none ∧
      (newOplogEntry b o).row_id = none := by
  unfold newOplogEntry
  rcases h with h | h
  · rw [h]; exact ⟨rfl, rfl, rfl⟩
  · rw [h]
    rcases o.object_type with _ | t <;> exact ⟨rfl, rfl, rfl⟩

theorem newOplogEntry_fields_some (b : String) (o : SyncOp) (t i : String)
    (ht : o.object_type = some t) (hi : o.object_id = some i) :
    (newOplogEntry b o).key = some (computeKey t i o.subkey) ∧
      (newOplogEntry b o).row_type = some t ∧ (newOplogEntry b o).row_id = some i := by
  unfold newOplogEntry
  rw [ht, hi]
  exact ⟨rfl, rfl, rfl⟩

/-! ## Generic list counting lemmas -/

theorem length_filter_map_le {α : Type} (f : α → α) (p : α → Bool) (l : List α)
    (h : ∀ a, p (f a) = true → p a = true) :
    ((l.map f).filter p).length ≤ (l.filter p).length := by
  rw [← List.countP_eq_length_filter, ← List.countP_eq_length_filter, List.countP_map]
  exact List.countP_mono_left fun a _ ha => h a ha

theorem length_filter_map_eq {α : Type} (f : α → α) (p : α → Bool) (l : List α)
    (h : ∀ a, p (f a) = p a) :
    ((l.map f).filter p).length = (l.filter p).length := by
  rw [← List.countP_eq_length_filter, ← List.countP_eq_length_filter, List.countP_map]
  induction l with
  | nil => rfl
  | cons a l ih => simp only [List.countP_cons, ih, Function.comp_apply, h a]

theorem filter_map_eq_nil {α : Type} (f : α → α) (p : α → Bool) (l : List α)
    (h : ∀ a, p (f a) = false) :
    (l.map f).filter p = [] := by
  refine List.filter_eq_nil_iff.mpr ?_
  intro a ha
  obtain ⟨a0, _, rfl⟩ := List.mem_map.mp ha
  simp [h a0]

theorem length_filter_filter_le {α : Type} (p q : α → Bool) (l : List α) :
    ((l.filter q).filter p).length ≤ (l.filter p).length :=
  ((List.filter_sublist l).filter p).length_le

/-! ## The at-most-one-live-entry-per-key invariant (claim C8) -/

/-- Predicate for a live (non-superseded) oplog row of a given bucket and
non-NULL key. -/
def liveKeyPred (b k : String) (e : OplogEntry) : Bool :=
  decide (e.bucket = b ∧ e.key = some k ∧ e.superseded = false)

/-- Number of live oplog rows for one `(bucket, key)` pair. -/
def liveKeyCount (l : List OplogEntry) (b k : String) : Nat :=
  (l.filter (liveKeyPred b k)).length

/-- The spec's oplog invariant: for every `(bucket, key)` with a non-NULL
key, at most one entry has `superseded = 0`. -/
def KeyInv (l : List OplogEntry) : Prop :=
  ∀ b k, liveKeyCount l b k ≤ 1

theorem liveKeyPred_supersedeEntry_self (b k : String) (e : OplogEntry) :
    liveKeyPred b k (supersedeEntry b k e) = false := by
  unfold liveKeyPred supersedeEntry
  split
  · simp
  · rename_i hc
    simp only [decide_eq_false_iff_not]
    intro h
    exact hc ⟨h.2.2, h.1, h.2.1⟩

theorem liveKeyPred_supersedeEntry_le (b k b' k' : String) (e : OplogEntry)
    (h : liveKeyPred b' k' (supersedeEntry b k e) = true) :
    liveKeyPred b' k' e = true := by
  unfold supersedeEntry at h
  split at h
  · simp [liveKeyPred] at h
  · exact h

theorem liveKeyPred_clearEntry (b b' k' : String) (e : OplogEntry) :
    liveKeyPred b' k' (clearEntry b e) = liveKeyPred b' k' e := by
  unfold clearEntry
  split <;> rfl

theorem liveKeyCount_append (l₁ l₂ : List OplogEntry) (b k : String) :
    liveKeyCount (l₁ ++ l₂) b k = liveKeyCount l₁ b k + liveKeyCount l₂ b k := by
  unfold liveKeyCount
  rw [List.filter_append, List.length_append]

theorem applyOp_keyInv (ext : String → Int) (b : String) (s : DbState) (o : SyncOp)
    (h : KeyInv s.ps_oplog) : KeyInv (applyOp ext b s o).ps_oplog := by
  unfold applyOp
  split
  · intro b' k'
    rw [moveTargetStep_oplog, insertNewEntry_oplog, liveKeyCount_append]
    by_cases hkey : ∃ t i, o.object_type = some t ∧ o.object_id = some i
    · obtain ⟨t, i, ht, hi⟩ := hkey
      rw [supersedeForKey_eq_map b o s t i ht hi]
      by_cases hnew : liveKeyPred b' k' (newOplogEntry b o) = true
      · -- the new row is live for (b', k'): then b' = b and k' is the computed key,
        -- and every prior live row of that key has just been superseded
        have hb' : b' = b ∧ k' = computeKey t i o.subkey := by
          have hks := (newOplogEntry_fields_some b o t i ht hi).1
          unfold liveKeyPred at hnew
          simp only [decide_eq_true_eq] at hnew
          obtain ⟨h1, h2, _⟩ := hnew
          rw [hks] at h2
          exact ⟨h1.symm, by injection h2.symm⟩
        rw [hb'.1, hb'.2]
        have hz : liveKeyCount (s.ps_oplog.map (supersedeEntry b (computeKey t i o.subkey)))
            b (computeKey t i o.subkey) = 0 := by
          unfold liveKeyCount
          rw [filter_map_eq_nil]
          · rfl
          · exact liveKeyPred_supersedeEntry_self b (computeKey t i o.subkey)
        rw [hz]
        have hone : liveKeyCount [newOplogEntry b o] b (computeKey t i o.subkey) ≤ 1 := by
          unfold liveKeyCount
          simp only [List.filter_cons, List.filter_nil]
          split <;> simp
        omega
      · simp only [Bool.not_eq_true] at hnew
        have h1 : liveKeyCount [newOplogEntry b o] b' k' = 0 := by
          unfold liveKeyCount
          simp [List.filter_cons, hnew]
        rw [h1]
        have h2 := length_filter_map_le (supersedeEntry b (computeKey t i o.subkey))
          (liveKeyPred b' k') s.ps_oplog
          (liveKeyPred_supersedeEntry_le b (computeKey t i o.subkey) b' k')
        have h3 := h b' k'
        unfold liveKeyCount at h3 ⊢
        omega
    · -- no computed key: the state is unchanged and the inserted row has key = NULL
      have hn : o.object_type = none ∨ o.object_id = none := by
        rcases hot : o.object_type with _ | t
        · exact Or.inl rfl
        · rcases hoi : o.object_id with _ | i
          · exact Or.inr rfl
          · exact absurd ⟨t, i, hot, hoi⟩ hkey
      rw [supersedeForKey_eq_self b o s hn]
      have hkeynone := (newOplogEntry_fields_none b o hn).1
      have h0 : liveKeyCount [newOplogEntry b o] b' k' = 0 := by
        unfold liveKeyCount liveKeyPred
        simp [List.filter_cons, hkeynone]
      rw [h0]
      simpa using h b' k'
  · split
    · -- CLEAR: bucket/key/superseded of every row are untouched
      intro b' k'
      have heq := length_filter_map_eq (clearEntry b) (liveKeyPred b' k') s.ps_oplog
        (fun e => liveKeyPred_clearEntry b b' k' e)
      have hbk := h b' k'
      unfold clearStep liveKeyCount at hbk ⊢
      dsimp only
      omega
    · exact h

theorem foldl_applyOp_keyInv (ext : String → Int) (b : String) (ops : List SyncOp)
    (s : DbState) (h : KeyInv s.ps_oplog) :
    KeyInv (ops.foldl (applyOp ext b) s).ps_oplog := by
  induction ops generalizing s with
  | nil => exact h
  | cons o ops ih =>
    exact ih (applyOp ext b s o) (applyOp_keyInv ext b s o h)

/-- Claim C8: `insert_bucket_operations` preserves the invariant that for
every `(bucket, key)` pair with a non-NULL key, at most one `ps_oplog` row
has `superseded = 0`: supersession marks all prior live rows of the key
before a keyed row is inserted, CLEAR leaves keys and supersession flags
alone, and compaction only deletes rows. -/
theorem insert_bucket_operations_keyInv (ext : String → Int) (b : String)
    (ops : List SyncOp) (s : DbState) (h : KeyInv s.ps_oplog) :
    KeyInv (insert_bucket_operations ext b ops s).ps_oplog := by
  unfold insert_bucket_operations
  have h1 : KeyInv (ensureBucket b s).ps_oplog := by rw [ensureBucket_oplog]; exact h
  have h2 := foldl_applyOp_keyInv ext b ops (ensureBucket b s) h1
  split
  · rename_i f l _ _
    intro b' k'
    simp only [compact_oplog, setLastOp_oplog]
    have := length_filter_filter_le (liveKeyPred b' k')
      (fun e => ! decide (supersededInRange b f.op_id l.op_id e))
      (ops.foldl (applyOp ext b) (ensureBucket b s)).ps_oplog
    have h3 := h2 b' k'
    unfold liveKeyCount at h3 ⊢
    omega
  · exact h2

/-- Witness for claim C8's theorem: the invariant holds for the empty
database and is carried through a concrete ingestion. -/
theorem insert_bucket_operations_keyInv_witness :
    KeyInv (insert_bucket_operations (fun _ => 0) "b1"
      [{ op_id := 1, op := "PUT", object_type := some "t", object_id := some "a",
         checksum := 7, data := some "d", subkey := none }]
      { ps_buckets := [], ps_oplog := [], ps_crud := [], ps_kv := [],
        ps_untyped := [], ps_data := [] }).ps_oplog :=
  insert_bucket_operations_keyInv (fun _ => 0) "b1" _ _
    (by intro b k; simp [liveKeyCount])

/-! ## Concrete states for counterexamples and witnesses -/

/-- The empty database. -/
def emptyDb : DbState :=
  { ps_buckets := [], ps_oplog := [], ps_crud := [], ps_kv := [],
    ps_untyped := [], ps_data := [] }

/-- A live PUT entry for key `t/a/null` in bucket `b1`. -/
def exLiveEntry : OplogEntry :=
  { bucket := "b1", op_id := 1, op := 3, key := some "t/a/null",
    row_type := some "t", row_id := some "a", data := some "d0", hash := 10,
    superseded := false }

/-- A database holding bucket `b1` with the one live PUT entry. -/
def exDb1 : DbState :=
  { emptyDb with
    ps_buckets := [{ name := "b1", last_op := 1, last_applied_op := 0,
                     target_op := 0, add_checksum := 0, pending_delete := false }],
    ps_oplog := [exLiveEntry] }

/-- A PUT operation for the same key at `op_id` 2. -/
def exPut2 : SyncOp :=
  { op_id := 2, op := "PUT", object_type := some "t", object_id := some "a",
    checksum := 7, data := some "d1", subkey := none }

/-- A MOVE operation that carries `object_type` and `object_id`. -/
def exMoveTyped : SyncOp :=
  { op_id := 3, op := "MOVE", object_type := some "t", object_id := some "a",
    checksum := 3, data := none, subkey := none }

/-! ## Claim C1 -/

/-- Counterexample to claim C1: ingesting a PUT for the key `t/a/null` into
bucket `b1` over a prior live entry with that key rewrites the prior entry
to `superseded = 1`, `data = NULL`, but with `op = MOVE (2)` — the
`supersede_statement` sets `op = 2` — not `op = REMOVE (4)` as the claim
states.  The resulting oplog kind codes are `[2, 3]`, not `[4, 3]`. -/
theorem supersede_sets_op_remove_cex :
    (insert_bucket_operations (fun _ => 0) "b1" [exPut2] exDb1).ps_oplog.map
        (fun e => (e.op, e.superseded, e.data)) = [(2, true, none), (3, false, some "d1")] ∧
      ¬ (insert_bucket_operations (fun _ => 0) "b1" [exPut2] exDb1).ps_oplog.map
          (fun e => (e.op, e.superseded, e.data)) = [(4, true, none), (3, false, some "d1")] := by
  constructor
  · rfl
  · decide

/-- Claim C1 as amended: when a PUT or REMOVE operation with a computed key
is ingested, every prior live oplog entry in the same bucket with the same
key is rewritten to `superseded = 1`, `op = MOVE (2)` (not REMOVE), and
`data = NULL`, before the new entry is inserted (the new entry is appended
after the rewritten log, and is itself live). -/
theorem supersede_marks_prior_live_entries (ext : String → Int) (b t i : String)
    (s : DbState) (o : SyncOp)
    (hop : o.op = "PUT" ∨ o.op = "REMOVE")
    (ht : o.object_type = some t) (hi : o.object_id = some i) :
    ∃ f : OplogEntry → OplogEntry,
      (applyOp ext b s o).ps_oplog = s.ps_oplog.map f ++ [newOplogEntry b o] ∧
      (∀ e : OplogEntry, e.superseded = false → e.bucket = b →
          e.key = some (computeKey t i o.subkey) →
          f e = { e with superseded := true, op := 2, data := none }) ∧
      (∀ e : OplogEntry,
          ¬(e.superseded = false ∧ e.bucket = b ∧ e.key = some (computeKey t i o.subkey)) →
          f e = e) ∧
      (newOplogEntry b o).superseded = false := by
  have hmv : ¬ o.op = "MOVE" := by
    rcases hop with h | h <;> rw [h] <;> decide
  refine ⟨supersedeEntry b (computeKey t i o.subkey), ?_, ?_, ?_, ?_⟩
  · unfold applyOp
    rw [if_pos (by tauto), moveTargetStep_oplog, insertNewEntry_oplog,
      supersedeForKey_eq_map b o s t i ht hi]
  · intro e h1 h2 h3
    unfold supersedeEntry
    rw [if_pos ⟨h1, h2, h3⟩]
  · intro e hne
    unfold supersedeEntry
    rw [if_neg hne]
  · unfold newOplogEntry
    simp only [decide_eq_false hmv]

/-- Witness for claim C1's amended theorem at the concrete PUT of the
counterexample state. -/
theorem supersede_marks_prior_live_entries_witness :
    ∃ f : OplogEntry → OplogEntry,
      (applyOp (fun _ => 0) "b1" exDb1 exPut2).ps_oplog =
          exDb1.ps_oplog.map f ++ [newOplogEntry "b1" exPut2] ∧
      (∀ e : OplogEntry, e.superseded = false → e.bucket = "b1" →
          e.key = some (computeKey "t" "a" exPut2.subkey) →
          f e = { e with superseded := true, op := 2, data := none }) ∧
      (∀ e : OplogEntry,
          ¬(e.superseded = false ∧ e.bucket = "b1" ∧ e.key = some (computeKey "t" "a" exPut2.subkey)) →
          f e = e) ∧
      (newOplogEntry "b1" exPut2).superseded = false :=
  supersede_marks_prior_live_entries (fun _ => 0) "b1" "t" "a" exDb1 exPut2
    (Or.inl rfl) rfl rfl

/-! ## Claim C2 -/

/-- Counterexample to claim C2: a MOVE operation carrying `object_type` and
`object_id` is inserted with the computed key and the object fields, not
with `key = NULL`, `row_type = NULL`, `row_id = NULL`.  (Claim C2's
`superseded = 1` part does hold.) -/
theorem move_inserts_null_key_cex :
    (applyOp (fun _ => 0) "b1" emptyDb exMoveTyped).ps_oplog.map
        (fun e => (e.key, e.row_type, e.row_id, e.superseded)) =
      [(some "t/a/null", some "t", some "a", true)] ∧
      ¬ (applyOp (fun _ => 0) "b1" emptyDb exMoveTyped).ps_oplog.map
          (fun e => (e.key, e.row_type, e.row_id, e.superseded)) =
        [(none, none, none, true)] := by
  constructor
  · rfl
  · decide

/-- Claim C2 as amended: the oplog row inserted for a MOVE operation always
has `superseded = 1`, kind code 2 and `hash = checksum`; its `key`,
`row_type` and `row_id` are NULL exactly when the operation lacks
`object_type` or `object_id` — when both are present, the key is computed
as for PUT/REMOVE (and prior live entries of that key are superseded). -/
theorem move_insert_shape (ext : String → Int) (b : String) (s : DbState) (o : SyncOp)
    (h : o.op = "MOVE") :
    ∃ pre : List OplogEntry,
      (applyOp ext b s o).ps_oplog = pre ++ [newOplogEntry b o] ∧
      (newOplogEntry b o).superseded = true ∧
      (newOplogEntry b o).op = 2 ∧
      (newOplogEntry b o).hash = o.checksum ∧
      ((o.object_type = none ∨ o.object_id = none) →
        (newOplogEntry b o).key = none ∧ (newOplogEntry b o).row_type = none ∧
          (newOplogEntry b o).row_id = none) ∧
      (∀ t i, o.object_type = some t → o.object_id = some i →
        (newOplogEntry b o).key = some (computeKey t i o.subkey) ∧
          (newOplogEntry b o).row_type = some t ∧ (newOplogEntry b o).row_id = some i) := by
  refine ⟨(supersedeForKey b o s).ps_oplog, ?_, ?_, ?_, ?_, ?_, ?_⟩
  · unfold applyOp
    rw [if_pos (Or.inr (Or.inr h)), moveTargetStep_oplog, insertNewEntry_oplog]
  · unfold newOplogEntry
    simp only [decide_eq_true h]
  · unfold newOplogEntry
    rw [if_pos h]
  · rfl
  · exact newOplogEntry_fields_none b o
  · intro t i ht hi
    exact newOplogEntry_fields_some b o t i ht hi

/-- Witness for claim C2's amended theorem at the concrete typed MOVE of
the counterexample. -/
theorem move_insert_shape_witness :
    ∃ pre : List OplogEntry,
      (applyOp (fun _ => 0) "b1" emptyDb exMoveTyped).ps_oplog =
          pre ++ [newOplogEntry "b1" exMoveTyped] ∧
      (newOplogEntry "b1" exMoveTyped).superseded = true ∧
      (newOplogEntry "b1" exMoveTyped).op = 2 ∧
      (newOplogEntry "b1" exMoveTyped).hash = exMoveTyped.checksum ∧
      ((exMoveTyped.object_type = none ∨ exMoveTyped.object_id = none) →
        (newOplogEntry "b1" exMoveTyped).key = none ∧
          (newOplogEntry "b1" exMoveTyped).row_type = none ∧
          (newOplogEntry "b1" exMoveTyped).row_id = none) ∧
      (∀ t i, exMoveTyped.object_type = some t → exMoveTyped.object_id = some i →
        (newOplogEntry "b1" exMoveTyped).key = some (computeKey t i exMoveTyped.subkey) ∧
          (newOplogEntry "b1" exMoveTyped).row_type = some t ∧
          (newOplogEntry "b1" exMoveTyped).row_id = some i) :=
  move_insert_shape (fun _ => 0) "b1" emptyDb exMoveTyped rfl

/-! ## Claim C3 -/

/-- Claim C3's condition as the spec words it (for the refinement
comparison only): no non-local bucket with `pending_delete = 0` has
`target_op > last_op`, and `ps_crud` is empty. -/
def can_update_local_claimed (s : DbState) : Bool :=
  !(s.ps_buckets.any fun bk =>
      decide (bk.name ≠ "$local" ∧ bk.pending_delete = false ∧ bk.last_op < bk.target_op))
  && s.ps_crud.isEmpty

/-- A database whose only bucket is `$local`, pending delete, with
`target_op` ahead of `last_op`, and an empty `ps_crud`. -/
def exLocalDb : DbState :=
  { emptyDb with
    ps_buckets := [{ name := "$local", last_op := 0, last_applied_op := 0,
                     target_op := 5, add_checksum := 0, pending_delete := true }] }

/-- Counterexample to claim C3: on `exLocalDb` the claimed condition holds
(the only bucket is the local one, so no non-local bucket is behind its
target, and `ps_crud` is empty) yet `can_update_local` returns false — the
source's query also blocks on the `$local` bucket regardless of its
`pending_delete` flag. -/
theorem can_update_local_iff_cex :
    can_update_local exLocalDb = false ∧ can_update_local_claimed exLocalDb = true := by
  constructor
  · rfl
  · rfl

/-- Claim C3 as amended: `can_update_local` returns true iff (i) no bucket
that is either named `$local` or has `pending_delete = 0` has
`target_op > last_op`, and (ii) `ps_crud` is empty. -/
theorem can_update_local_characterization (s : DbState) :
    can_update_local s = true ↔
      ((∀ bk ∈ s.ps_buckets,
          (bk.name = "$local" ∨ bk.pending_delete = false) → bk.target_op ≤ bk.last_op) ∧
        s.ps_crud = []) := by
  unfold can_update_local
  rw [Bool.and_eq_true]
  constructor
  · rintro ⟨h1, h2⟩
    refine ⟨?_, List.isEmpty_iff.mp h2⟩
    intro bk hbk hcond
    by_contra hlt
    rw [not_le] at hlt
    have hany : (s.ps_buckets.any fun bk =>
        decide (bk.last_op < bk.target_op ∧ (bk.name = "$local" ∨ bk.pending_delete = false))) = true :=
      List.any_eq_true.mpr ⟨bk, hbk, by simp [hlt, hcond]⟩
    rw [hany] at h1
    exact absurd h1 (by decide)
  · rintro ⟨h1, h2⟩
    refine ⟨?_, by simp [h2]⟩
    cases hany : (s.ps_buckets.any fun bk =>
        decide (bk.last_op < bk.target_op ∧ (bk.name = "$local" ∨ bk.pending_delete = false))) with
    | false => rfl
    | true =>
      exfalso
      obtain ⟨bk, hbk, hp⟩ := List.any_eq_true.mp hany
      rw [decide_eq_true_eq] at hp
      exact absurd (h1 bk hbk hp.2) (not_le.mpr hp.1)

/-! ## Claim C4 -/

/-- Total `add_checksum` of the `ps_buckets` rows named `b` (with the
schema's name uniqueness there is at most one such row). -/
def bucketAddChecksum (b : String) (s : DbState) : Int :=
  ((s.ps_buckets.filter fun bk => decide (bk.name = b)).map Bucket.add_checksum).sum

/-- Sum of `hash` over all oplog rows of bucket `b`. -/
def bucketHashSum (b : String) (l : List OplogEntry) : Int :=
  ((l.filter fun e => decide (e.bucket = b)).map OplogEntry.hash).sum

/-- Sum of `hash` over the live (`superseded = 0`) oplog rows of bucket
`b` — the quantity named by claim C4. -/
def bucketLiveHashSum (b : String) (l : List OplogEntry) : Int :=
  ((l.filter fun e => decide (e.bucket = b ∧ e.superseded = false)).map OplogEntry.hash).sum

/-- A database with one bucket row for `b1` and a single superseded MOVE
row with hash 5 at `op_id` 1. -/
def exSupDb : DbState :=
  { emptyDb with
    ps_buckets := [{ name := "b1", last_op := 1, last_applied_op := 0,
                     target_op := 0, add_checksum := 0, pending_delete := false }],
    ps_oplog := [{ bucket := "b1", op_id := 1, op := 2, key := none, row_type := none,
                   row_id := none, data := none, hash := 5, superseded := true }] }

/-- Counterexample to claim C4: running the compaction postamble over the
range [1, 1] on `exSupDb` moves the superseded row's hash 5 into
`add_checksum` while the sum over `superseded = 0` rows stays 0, so the
quantity `add_checksum + Σ hash over superseded = 0` grows from 0 to 5 —
it is not preserved.  (The preserved quantity is the sum over all rows,
superseded included; see the amended theorem.) -/
theorem compact_preserves_live_sum_cex :
    bucketAddChecksum "b1" (compact "b1" 1 1 exSupDb) +
        bucketLiveHashSum "b1" (compact "b1" 1 1 exSupDb).ps_oplog ≠
      bucketAddChecksum "b1" exSupDb + bucketLiveHashSum "b1" exSupDb.ps_oplog := by
  decide

@[simp]
theorem compact_buckets (b : String) (f l : Int) (s : DbState) :
    (compact b f l s).ps_buckets = s.ps_buckets.map fun bk =>
      if bk.name = b then
        { bk with add_checksum := bk.add_checksum +
            ((s.ps_oplog.filter fun e => decide (supersededInRange b f l e)).map OplogEntry.hash).sum }
      else bk := rfl

theorem bucketHashSum_cons (b : String) (e : OplogEntry) (l : List OplogEntry) :
    bucketHashSum b (e :: l) = (if e.bucket = b then e.hash else 0) + bucketHashSum b l := by
  unfold bucketHashSum
  rw [List.filter_cons]
  by_cases h : e.bucket = b
  · simp [h]
  · simp [h]

theorem bucketHashSum_filter_split (b : String) (P : OplogEntry → Bool)
    (l : List OplogEntry) (h : ∀ e, P e = true → e.bucket = b) :
    bucketHashSum b (l.filter fun e => ! P e) + ((l.filter P).map OplogEntry.hash).sum
      = bucketHashSum b l := by
  induction l with
  | nil => simp [bucketHashSum]
  | cons e l ih =>
    by_cases hP : P e = true
    · rw [List.filter_cons_of_neg (by simp [hP]), List.filter_cons_of_pos (by simp [hP]),
        bucketHashSum_cons, if_pos (h e hP), List.map_cons, List.sum_cons]
      omega
    · simp only [Bool.not_eq_true] at hP
      rw [List.filter_cons_of_pos (by simp [hP]), List.filter_cons_of_neg (by simp [hP]),
        bucketHashSum_cons, bucketHashSum_cons]
      by_cases hb : e.bucket = b
      · rw [if_pos hb]
        omega
      · rw [if_neg hb]
        omega

theorem addChecksum_bump (bl : List Bucket) (b : String) (S : Int)
    (h : (bl.filter fun bk => decide (bk.name = b)).length = 1) :
    (((bl.map fun bk =>
          if bk.name = b then { bk with add_checksum := bk.add_checksum + S } else bk).filter
        fun bk => decide (bk.name = b)).map Bucket.add_checksum).sum
      = ((bl.filter fun bk => decide (bk.name = b)).map Bucket.add_checksum).sum + S := by
  induction bl with
  | nil => simp at h
  | cons bk bl ih =>
    by_cases hn : bk.name = b
    · rw [List.filter_cons_of_pos (by simp [hn])] at h
      rw [List.length_cons] at h
      have hrest : (bl.filter fun bk => decide (bk.name = b)) = [] :=
        List.length_eq_zero.mp (by omega)
      have hrestmap : ((bl.map fun bk =>
          if bk.name = b then { bk with add_checksum := bk.add_checksum + S } else bk).filter
            fun bk => decide (bk.name = b)) = [] := by
        apply List.length_eq_zero.mp
        have hle := length_filter_map_le
          (fun bk => if bk.name = b then { bk with add_checksum := bk.add_checksum + S } else bk)
          (fun bk => decide (bk.name = b)) bl ?_
        · rw [hrest] at hle
          simpa using hle
        · intro a ha
          by_cases hab : a.name = b
          · simpa using hab
          · simp only [if_neg hab] at ha
            exact ha
      rw [List.map_cons, if_pos hn, List.filter_cons_of_pos (by simp [hn]), hrestmap,
        List.filter_cons_of_pos (by simp [hn]), hrest]
      simp only [List.map_cons, List.map_nil, List.sum_cons, List.sum_nil]
      omega
    · rw [List.filter_cons_of_neg (by simp [hn])] at h
      rw [List.map_cons, if_neg hn, List.filter_cons_of_neg (by simp [hn]),
        List.filter_cons_of_neg (by simp [hn])]
      exact ih h

/-- Claim C4 as amended: for a bucket with a unique `ps_buckets` row, the
compaction postamble preserves `add_checksum + Σ hash` over ALL of that
bucket's oplog rows (superseded included): the summed hash of superseded
rows with `op_id` in `[first, last]` moves into `add_checksum` and exactly
those rows are deleted.  The claim's quantity restricted to
`superseded = 0` rows is not the preserved one. -/
theorem compact_preserves_bucket_total (b : String) (f l : Int) (s : DbState)
    (h : (s.ps_buckets.filter fun bk => decide (bk.name = b)).length = 1) :
    bucketAddChecksum b (compact b f l s) + bucketHashSum b (compact b f l s).ps_oplog
        = bucketAddChecksum b s + bucketHashSum b s.ps_oplog ∧
      (compact b f l s).ps_oplog
        = s.ps_oplog.filter fun e => ! decide (supersededInRange b f l e) := by
  refine ⟨?_, rfl⟩
  have hbump := addChecksum_bump s.ps_buckets b
    ((s.ps_oplog.filter fun e => decide (supersededInRange b f l e)).map OplogEntry.hash).sum h
  have hsplit := bucketHashSum_filter_split b
    (fun e => decide (supersededInRange b f l e)) s.ps_oplog ?_
  · unfold bucketAddChecksum
    rw [compact_buckets, compact_oplog, hbump]
    omega
  · intro e he
    rw [decide_eq_true_eq] at he
    exact he.2.1

/-- Witness for claim C4's amended theorem: on `exSupDb` the total
(all-rows) checksum quantity is preserved by the postamble. -/
theorem compact_preserves_bucket_total_witness :
    bucketAddChecksum "b1" (compact "b1" 1 1 exSupDb) +
          bucketHashSum "b1" (compact "b1" 1 1 exSupDb).ps_oplog
        = bucketAddChecksum "b1" exSupDb + bucketHashSum "b1" exSupDb.ps_oplog ∧
      (compact "b1" 1 1 exSupDb).ps_oplog
        = exSupDb.ps_oplog.filter fun e => ! decide (supersededInRange "b1" 1 1 e) :=
  compact_preserves_bucket_total "b1" 1 1 exSupDb (by decide)

/-! ## Claim C5 -/

/-- Claim C5: processing a CLEAR operation with checksum `c` for bucket `B`
rewrites every existing oplog entry of `B` with `op = PUT (3)` or
`op = REMOVE (4)` to `op = REMOVE, data = NULL, hash = 0` without deleting
any row (the result is a pointwise map, so the length is preserved and
every other entry is untouched), and sets the bucket record of `B` to
`last_applied_op = 0` and `add_checksum = c` (replacing the previous
value, whatever it was). -/
theorem clear_collapses_bucket (ext : String → Int) (b : String) (s : DbState)
    (o : SyncOp) (h : o.op = "CLEAR") :
    ∃ g : OplogEntry → OplogEntry, ∃ u : Bucket → Bucket,
      (applyOp ext b s o).ps_oplog = s.ps_oplog.map g ∧
      (applyOp ext b s o).ps_oplog.length = s.ps_oplog.length ∧
      (∀ e : OplogEntry, e.bucket = b → (e.op = 3 ∨ e.op = 4) →
          g e = { e with op := 4, data := none, hash := 0 }) ∧
      (∀ e : OplogEntry, ¬((e.op = 3 ∨ e.op = 4) ∧ e.bucket = b) → g e = e) ∧
      (applyOp ext b s o).ps_buckets = s.ps_buckets.map u ∧
      (∀ bk : Bucket, bk.name = b →
          u bk = { bk with last_applied_op := 0, add_checksum := o.checksum }) ∧
      (∀ bk : Bucket, bk.name ≠ b → u bk = bk) := by
  have h1 : ¬(o.op = "PUT" ∨ o.op = "REMOVE" ∨ o.op = "MOVE") := by
    rw [h]; decide
  refine ⟨clearEntry b, clearBucketRow b o.checksum, ?_, ?_, ?_, ?_, ?_, ?_, ?_⟩
  · unfold applyOp
    rw [if_neg h1, if_pos h]
    rfl
  · unfold applyOp
    rw [if_neg h1, if_pos h]
    exact List.length_map _ _
  · intro e he1 he2
    unfold clearEntry
    rw [if_pos ⟨he2, he1⟩]
  · intro e hne
    unfold clearEntry
    rw [if_neg hne]
  · unfold applyOp
    rw [if_neg h1, if_pos h]
    rfl
  · intro bk hbk
    unfold clearBucketRow
    rw [if_pos hbk]
  · intro bk hbk
    unfold clearBucketRow
    rw [if_neg hbk]

/-- A CLEAR operation with checksum 11. -/
def exClear : SyncOp :=
  { op_id := 9, op := "CLEAR", object_type := none, object_id := none,
    checksum := 11, data := none, subkey := none }

/-- Witness for claim C5's theorem at a concrete CLEAR over `exDb1`. -/
theorem clear_collapses_bucket_witness :
    ∃ g : OplogEntry → OplogEntry, ∃ u : Bucket → Bucket,
      (applyOp (fun _ => 0) "b1" exDb1 exClear).ps_oplog = exDb1.ps_oplog.map g ∧
      (applyOp (fun _ => 0) "b1" exDb1 exClear).ps_oplog.length = exDb1.ps_oplog.length ∧
      (∀ e : OplogEntry, e.bucket = "b1" → (e.op = 3 ∨ e.op = 4) →
          g e = { e with op := 4, data := none, hash := 0 }) ∧
      (∀ e : OplogEntry, ¬((e.op = 3 ∨ e.op = 4) ∧ e.bucket = "b1") → g e = e) ∧
      (applyOp (fun _ => 0) "b1" exDb1 exClear).ps_buckets = exDb1.ps_buckets.map u ∧
      (∀ bk : Bucket, bk.name = "b1" →
          u bk = { bk with last_applied_op := 0, add_checksum := exClear.checksum }) ∧
      (∀ bk : Bucket, bk.name ≠ "b1" → u bk = bk) :=
  clear_collapses_bucket (fun _ => 0) "b1" exDb1 exClear rfl

/-! ## Claim C6 -/

/-- Claim C6: whenever `sync_local` returns 1, on return every row of
`ps_buckets` satisfies `last_applied_op = last_op`, and `ps_kv` holds an
entry with key `last_synced_at`. -/
theorem sync_local_one_applied (now : String) (s s' : DbState)
    (h : sync_local now s = some (s', 1)) :
    (∀ bk ∈ s'.ps_buckets, bk.last_applied_op = bk.last_op) ∧
      ∃ v, ("last_synced_at", v) ∈ s'.ps_kv := by
  unfold sync_local at h
  split at h
  · exfalso
    have h2 := Option.some.inj h
    have h3 := congrArg Prod.snd h2
    norm_num at h3
  · split at h
    · exact absurd h (by simp)
    · rename_i s1 _
      have h2 := Option.some.inj h
      have hs : s' = recordSyncedAtStep now (setLastAppliedStep s1) :=
        (congrArg Prod.fst h2).symm
      subst hs
      constructor
      · intro bk hbk
        have hbk2 : bk ∈ (setLastAppliedStep s1).ps_buckets := hbk
        unfold setLastAppliedStep at hbk2
        obtain ⟨bk0, _, rfl⟩ := List.mem_map.mp hbk2
        by_cases hne : bk0.last_applied_op ≠ bk0.last_op
        · rw [if_pos hne]
        · rw [if_neg hne]
          exact not_ne_iff.mp hne
      · exact ⟨now, List.mem_append_right _ (List.mem_singleton_self _)⟩

/-- The state `sync_local` produces from the empty database. -/
def exSyncedDb : DbState :=
  { emptyDb with ps_kv := [("last_synced_at", "t0")] }

/-- Witness for claim C6's theorem: on the empty database `sync_local`
returns 1 and the conclusion holds. -/
theorem sync_local_one_applied_witness :
    (∀ bk ∈ exSyncedDb.ps_buckets, bk.last_applied_op = bk.last_op) ∧
      ∃ v, ("last_synced_at", v) ∈ exSyncedDb.ps_kv :=
  sync_local_one_applied "t0" emptyDb exSyncedDb rfl

/-! ## Claim C7 -/

/-- Claim C7: whenever `ps_crud` is non-empty, `sync_local` returns 0 and
leaves the database state — every table — unchanged. -/
theorem sync_local_gated (now : String) (s : DbState) (h : s.ps_crud ≠ []) :
    sync_local now s = some (s, 0) := by
  have hc : can_update_local s = false := by
    unfold can_update_local
    cases hcr : s.ps_crud with
    | nil => exact absurd hcr h
    | cons a t => simp [hcr]
  unfold sync_local
  rw [hc]
  rfl

/-- A database with one pending CRUD row. -/
def exCrudDb : DbState :=
  { emptyDb with ps_crud := ["x"] }

/-- Witness for claim C7's theorem at a database with one CRUD row. -/
theorem sync_local_gated_witness :
    sync_local "t0" exCrudDb = some (exCrudDb, 0) :=
  sync_local_gated "t0" exCrudDb (by decide)

/-! ## Claim C9 -/

/-- Claim C9: `delete_pending_buckets` removes, for every bucket with
`pending_delete = 1`, `last_applied_op = last_op` and `last_op ≥ target_op`
(`reapCond`), all of that bucket's `ps_oplog` rows and its `ps_buckets`
row; afterwards no `ps_buckets` row satisfying the condition remains,
buckets not satisfying it survive, and oplog rows of non-reaped buckets
are untouched. -/
theorem delete_pending_buckets_reaps (s : DbState) :
    (∀ bk ∈ (delete_pending_buckets s).ps_buckets, ¬ reapCond bk) ∧
      (∀ bk ∈ s.ps_buckets, ¬ reapCond bk → bk ∈ (delete_pending_buckets s).ps_buckets) ∧
      (∀ e ∈ (delete_pending_buckets s).ps_oplog,
        ∀ bk ∈ s.ps_buckets, reapCond bk → e.bucket ≠ bk.name) ∧
      (∀ e ∈ s.ps_oplog,
        (∀ bk ∈ s.ps_buckets, reapCond bk → e.bucket ≠ bk.name) →
          e ∈ (delete_pending_buckets s).ps_oplog) := by
  refine ⟨?_, ?_, ?_, ?_⟩
  · intro bk hbk
    have h2 := (List.mem_filter.mp hbk).2
    simpa using h2
  · intro bk hbk hnr
    exact List.mem_filter.mpr ⟨hbk, by simpa using hnr⟩
  · intro e he bk hbk hreap heq
    have h2 := (List.mem_filter.mp he).2
    simp only [Bool.not_eq_true'] at h2
    have hmem : e.bucket ∈
        ((s.ps_buckets.filter fun bk => decide (reapCond bk)).map Bucket.name) :=
      List.mem_map.mpr ⟨bk, List.mem_filter.mpr ⟨hbk, by simpa using hreap⟩, heq.symm⟩
    have h3 : ((s.ps_buckets.filter fun bk => decide (reapCond bk)).map Bucket.name).contains
        e.bucket = true := by
      simpa using hmem
    rw [h3] at h2
    exact absurd h2 (by decide)
  · intro e he hng
    refine List.mem_filter.mpr ⟨he, ?_⟩
    have hcf : ((s.ps_buckets.filter fun bk => decide (reapCond bk)).map Bucket.name).contains
        e.bucket = false := by
      rw [Bool.eq_false_iff]
      intro hc
      have hmem : e.bucket ∈
          ((s.ps_buckets.filter fun bk => decide (reapCond bk)).map Bucket.name) := by
        simpa using hc
      obtain ⟨bk, hbk2, hname⟩ := List.mem_map.mp hmem
      have hbk3 := List.mem_filter.mp hbk2
      exact hng bk hbk3.1 (by simpa using hbk3.2) hname.symm
    rw [hcf]
    rfl

/-! ## Claim C10 -/

theorem applyOp_unrecognized (ext : String → Int) (b : String) (s : DbState) (o : SyncOp)
    (h1 : o.op ≠ "PUT") (h2 : o.op ≠ "REMOVE") (h3 : o.op ≠ "MOVE") (h4 : o.op ≠ "CLEAR") :
    applyOp ext b s o = s := by
  unfold applyOp
  rw [if_neg (by tauto), if_neg h4]

theorem foldl_applyOp_unrecognized (ext : String → Int) (b : String) (ops : List SyncOp)
    (s : DbState)
    (hu : ∀ o ∈ ops, o.op ≠ "PUT" ∧ o.op ≠ "REMOVE" ∧ o.op ≠ "MOVE" ∧ o.op ≠ "CLEAR") :
    ops.foldl (applyOp ext b) s = s := by
  induction ops generalizing s with
  | nil => rfl
  | cons o ops ih =>
    have ho := hu o (List.mem_cons_self o ops)
    rw [List.foldl_cons, applyOp_unrecognized ext b s o ho.1 ho.2.1 ho.2.2.1 ho.2.2.2]
    exact ih s fun o' ho' => hu o' (List.mem_cons_of_mem o ho')

theorem ensureBucket_mem (b : String) (s : DbState) :
    ∃ bk ∈ (ensureBucket b s).ps_buckets, bk.name = b := by
  unfold ensureBucket
  split
  · rename_i hany
    obtain ⟨bk, hbk, hp⟩ := List.any_eq_true.mp hany
    exact ⟨bk, hbk, of_decide_eq_true hp⟩
  · exact ⟨_, List.mem_append_right _ (List.mem_singleton_self _), rfl⟩

/-- Claim C10: an operation whose kind is none of PUT / REMOVE / MOVE /
CLEAR inserts no oplog row and raises no error, but its `op_id` still
counts toward the batch's `[first, last]` range: a batch of only
unrecognized operations adds nothing to `ps_oplog` (every remaining row
was already present) yet still sets the bucket's `last_op` to the last
`op_id` of the batch. -/
theorem unrecognized_ops_advance_last_op (ext : String → Int) (b : String)
    (s : DbState) (ops : List SyncOp) (lastO : SyncOp)
    (hu : ∀ o ∈ ops, o.op ≠ "PUT" ∧ o.op ≠ "REMOVE" ∧ o.op ≠ "MOVE" ∧ o.op ≠ "CLEAR")
    (hl : ops.getLast? = some lastO) :
    (∀ e ∈ (insert_bucket_operations ext b ops s).ps_oplog, e ∈ s.ps_oplog) ∧
      (∃ bk ∈ (insert_bucket_operations ext b ops s).ps_buckets, bk.name = b) ∧
      (∀ bk ∈ (insert_bucket_operations ext b ops s).ps_buckets,
        bk.name = b → bk.last_op = lastO.op_id) := by
  have hne : ops ≠ [] := by
    intro hnil
    rw [hnil] at hl
    exact absurd hl (by simp)
  rcases hhd : ops.head? with _ | f
  · exact absurd (List.head?_eq_none_iff.mp hhd) hne
  unfold insert_bucket_operations
  rw [foldl_applyOp_unrecognized ext b ops (ensureBucket b s) hu, hhd, hl]
  refine ⟨?_, ?_, ?_⟩
  · intro e he
    rw [compact_oplog, setLastOp_oplog, ensureBucket_oplog] at he
    exact (List.mem_filter.mp he).1
  · obtain ⟨bk0, hbk0, hname0⟩ := ensureBucket_mem b s
    rw [compact_buckets]
    unfold setLastOp
    rw [List.map_map]
    refine ⟨_, List.mem_map.mpr ⟨bk0, hbk0, rfl⟩, ?_⟩
    simp [Function.comp, hname0]
  · intro bk hbk hname
    rw [compact_buckets] at hbk
    unfold setLastOp at hbk
    rw [List.map_map] at hbk
    obtain ⟨bk0, hbk0, rfl⟩ := List.mem_map.mp hbk
    by_cases h0 : bk0.name = b
    · simp [Function.comp, h0]
    · simp [Function.comp, h0] at hname

/-- An operation with an unrecognized kind. -/
def exNop : SyncOp :=
  { op_id := 7, op := "NOPE", object_type := none, object_id := none,
    checksum := 0, data := none, subkey := none }

/-- Witness for claim C10's theorem: a batch holding only the unrecognized
operation still drives `last_op` of the bucket to 7. -/
theorem unrecognized_ops_advance_last_op_witness :
    (∀ e ∈ (insert_bucket_operations (fun _ => 0) "b1" [exNop] emptyDb).ps_oplog,
        e ∈ emptyDb.ps_oplog) ∧
      (∃ bk ∈ (insert_bucket_operations (fun _ => 0) "b1" [exNop] emptyDb).ps_buckets,
        bk.name = "b1") ∧
      (∀ bk ∈ (insert_bucket_operations (fun _ => 0) "b1" [exNop] emptyDb).ps_buckets,
        bk.name = "b1" → bk.last_op = exNop.op_id) :=
  unrecognized_ops_advance_last_op (fun _ => 0) "b1" emptyDb [exNop] exNop
    (by decide) rfl

end PowerSync
